import Mathlib

/-!
Shallow embedding of `src/lib/fs_watch.py`: the inotify-based change waiter
(`InotifyWaiter`), the adaptive polling fallback (`AdaptivePollWaiter`), the
facade (`FileChangeWaiter`), and the ctypes backend's event-record decoder
(`_CtypesInotifyBackend.read`).

Filesystem queries (`Path.exists`, `Path.is_dir`, `Path.parent`, `Path.name`),
backend watch registration outcomes and the backend's `read` are modelled by an
environment record `Env`; watch descriptors are allocated from a fresh counter
(`nextWd`), matching the backend contract that handles are unique per instance.
Python dicts are modelled as insertion-ordered association lists. Python floats
are modelled as rationals. Exceptions raised by the native strategy inside the
facade are modelled by an explicit `raises` oracle argument.
-/

/-- Python dict assignment `d[k] = v`: overrides in place, appends if absent. -/
def dictInsert {α β : Type} [DecidableEq α] (k : α) (v : β) : List (α × β) → List (α × β)
  | [] => [(k, v)]
  | (k', v') :: rest => if k' = k then (k, v) :: rest else (k', v') :: dictInsert k v rest

/-- Python dict lookup `d.get(k)`. -/
def dictGet {α β : Type} [DecidableEq α] (k : α) : List (α × β) → Option β
  | [] => none
  | (k', v') :: rest => if k' = k then some v' else dictGet k rest

/-- Kind tag stored in `InotifyWaiter._wds`: `"dir"` or `"file"`. -/
inductive Kind where
  | dir : Kind
  | file : Kind
deriving DecidableEq, Repr

/-- One decoded inotify event (`InotifyEvent` dataclass). -/
structure InotifyEvent where
  wd : Int
  mask : Nat
  cookie : Nat
  name : String
deriving DecidableEq, Repr

/-- Oracle for the filesystem, path arithmetic and the backend, covering the
outcomes of `Path.exists`/`is_dir`/`parent`/`name`, whether a given
`add_watch` call succeeds, and what `backend.read(timeout_ms)` returns. -/
structure Env where
  pathExists : String → Bool
  isDir : String → Bool
  parent : String → String
  fileName : String → String
  addOk : String → Nat → Bool
  read : Nat → List InotifyEvent

-- linux/inotify.h masks (subset), as in the source.
def MASK_MODIFY : Nat := 0x00000002
def MASK_ATTRIB : Nat := 0x00000004
def MASK_CLOSE_WRITE : Nat := 0x00000008
def MASK_MOVED_TO : Nat := 0x00000080
def MASK_CREATE : Nat := 0x00000100
def MASK_DELETE : Nat := 0x00000200
def MASK_MOVE_SELF : Nat := 0x00000800
def MASK_DELETE_SELF : Nat := 0x00000400
def MASK_Q_OVERFLOW : Nat := 0x00004000

def FILE_MASK : Nat :=
  MASK_MODIFY ||| MASK_ATTRIB ||| MASK_CLOSE_WRITE ||| MASK_MOVE_SELF ||| MASK_DELETE_SELF

def DIR_MASK : Nat :=
  MASK_MOVED_TO ||| MASK_CREATE ||| MASK_DELETE ||| MASK_CLOSE_WRITE ||| MASK_ATTRIB

/-- State of an `InotifyWaiter`: `_wds` (wd → (kind, path)), `_tracked_files`
(file path → parent dir), the `overflowed` flag, plus the backend-side watch
allocator (`nextWd`, fresh-handle counter) and a ghost log of the successful
`add_watch(path, mask)` calls. -/
structure InotifyWaiter where
  wds : List (Int × Kind × String)
  tracked : List (String × String)
  overflowed : Bool
  nextWd : Int
  addCalls : List (String × Nat)
deriving Repr

/-- Fresh state as built by `InotifyWaiter.__init__`. -/
def InotifyWaiter.initState : InotifyWaiter :=
  { wds := [], tracked := [], overflowed := false, nextWd := 1, addCalls := [] }

/-- `backend.add_watch(path, mask)` as seen through the waiter: succeeds iff
the oracle allows it, returning a fresh watch descriptor. -/
def InotifyWaiter.addWatch (env : Env) (st : InotifyWaiter) (path : String) (mask : Nat) :
    Option (Int × InotifyWaiter) :=
  if env.addOk path mask then
    some (st.nextWd,
      { st with nextWd := st.nextWd + 1, addCalls := st.addCalls ++ [(path, mask)] })
  else none

/-- One `try: wd = add_watch(...); self._wds[wd] = (kind, path); except: pass`
block: on success records the watch, on failure leaves the state unchanged.
The boolean reports success (whether the `try` body ran to completion). -/
def InotifyWaiter.tryAddWatch (env : Env) (st : InotifyWaiter) (path : String) (mask : Nat)
    (kind : Kind) : InotifyWaiter × Bool :=
  match InotifyWaiter.addWatch env st path mask with
  | some (wd, st') => ({ st' with wds := dictInsert wd (kind, path) st'.wds }, true)
  | none => (st, false)

/-- The fallback part of `_watch_one`: watch the parent directory
(best-effort), then the file itself if it exists (best-effort). -/
def InotifyWaiter.watchRest (env : Env) (st : InotifyWaiter) (path par : String) (ex : Bool) :
    InotifyWaiter :=
  let st2 := (InotifyWaiter.tryAddWatch env st par DIR_MASK Kind.dir).1
  if ex then (InotifyWaiter.tryAddWatch env st2 path FILE_MASK Kind.file).1 else st2

/-- `InotifyWaiter._watch_one(path)`. -/
def InotifyWaiter.watchOne (env : Env) (st : InotifyWaiter) (path : String) : InotifyWaiter :=
  let par := env.parent path
  let st1 := { st with tracked := dictInsert path par st.tracked }
  let ex := env.pathExists path
  -- if the path exists and is a directory and the direct watch succeeds: done;
  -- a failed direct watch falls through to the parent/file section
  if ex && env.isDir path then
    match InotifyWaiter.tryAddWatch env st1 path DIR_MASK Kind.dir with
    | (st2, true) => st2
    | (_, false) => InotifyWaiter.watchRest env st1 path par ex
  else InotifyWaiter.watchRest env st1 path par ex

/-- `InotifyWaiter._reset_watches()`: clears `_wds` and `_tracked_files`. -/
def InotifyWaiter.resetWatches (st : InotifyWaiter) : InotifyWaiter :=
  { st with wds := [], tracked := [] }

/-- `InotifyWaiter.watch_paths(paths)`. -/
def InotifyWaiter.watchPaths (env : Env) (st : InotifyWaiter) (paths : List String) :
    InotifyWaiter :=
  paths.foldl (InotifyWaiter.watchOne env) (InotifyWaiter.resetWatches st)

/-- `InotifyWaiter.close()`: removes every watch (map side: clears `_wds`). -/
def InotifyWaiter.close (st : InotifyWaiter) : InotifyWaiter :=
  { st with wds := [] }

/-- `InotifyWaiter._refresh_file_watch(file_path)`. -/
def InotifyWaiter.refreshFileWatch (env : Env) (st : InotifyWaiter) (filePath : String) :
    InotifyWaiter :=
  if env.pathExists filePath then
    let st1 := { st with
      wds := st.wds.filter (fun e => !(e.2.1 = Kind.file ∧ e.2.2 = filePath : Bool)) }
    (InotifyWaiter.tryAddWatch env st1 filePath FILE_MASK Kind.file).1
  else st

/-- The `for file_path, parent in self._tracked_files.items()` scan inside
`wait`'s directory-event branch: first tracked file whose parent is compatible
with the event's resolved directory and whose basename equals the event name. -/
def InotifyWaiter.findTracked (env : Env) (watchedPath evName : String) :
    List (String × String) → Option String
  | [] => none
  | (fp, par) :: rest =>
    if par = "" then InotifyWaiter.findTracked env watchedPath evName rest
    else if watchedPath ≠ "" ∧ watchedPath ≠ par then
      InotifyWaiter.findTracked env watchedPath evName rest
    else if env.fileName fp = evName then some fp
    else InotifyWaiter.findTracked env watchedPath evName rest

/-- The `for ev in events` loop of `InotifyWaiter.wait`, including the final
`return True` after the loop. -/
def InotifyWaiter.waitLoop (env : Env) (st : InotifyWaiter) :
    List InotifyEvent → InotifyWaiter × Bool
  | [] => (st, true)
  | ev :: rest =>
    if ev.mask &&& MASK_Q_OVERFLOW ≠ 0 then
      ({ st with overflowed := true }, true)
    else if ev.mask &&& (MASK_MOVE_SELF ||| MASK_DELETE_SELF) ≠ 0 then
      match dictGet ev.wd st.wds with
      | some (Kind.file, p) => (InotifyWaiter.refreshFileWatch env st p, true)
      | _ => (st, true)
    else if ev.name ≠ "" then
      let watchedPath :=
        match dictGet ev.wd st.wds with
        | some (_, p) => p
        | none => ""
      match InotifyWaiter.findTracked env watchedPath ev.name st.tracked with
      | some fp => (InotifyWaiter.refreshFileWatch env st fp, true)
      | none => (st, true)
    else InotifyWaiter.waitLoop env st rest

/-- Body of `InotifyWaiter.wait` after the backend read: `if not events:
return False`, then the event loop. -/
def InotifyWaiter.waitEvents (env : Env) (st : InotifyWaiter) (events : List InotifyEvent) :
    InotifyWaiter × Bool :=
  if events.isEmpty then (st, false) else InotifyWaiter.waitLoop env st events

/-- `timeout_ms = int(max(0.0, timeout) * 1000)`. -/
def InotifyWaiter.timeoutMs (timeout : ℚ) : Nat := (max 0 timeout * 1000).floor.toNat

/-- `InotifyWaiter.wait(timeout)`. -/
def InotifyWaiter.wait (env : Env) (st : InotifyWaiter) (timeout : ℚ) :
    InotifyWaiter × Bool :=
  InotifyWaiter.waitEvents env st (env.read (InotifyWaiter.timeoutMs timeout))

/-- `AdaptivePollWaiter` state: `_base`, `_max`, `_current` (rationals for
Python floats). -/
structure AdaptivePollWaiter where
  base : ℚ
  maxIv : ℚ
  current : ℚ
deriving Repr

/-- `AdaptivePollWaiter.__init__(base_interval, max_interval)`. -/
def AdaptivePollWaiter.init (baseInterval maxInterval : ℚ) : AdaptivePollWaiter :=
  let b := max 0 baseInterval
  { base := b, maxIv := max b maxInterval, current := b }

/-- `AdaptivePollWaiter.reset()`. -/
def AdaptivePollWaiter.reset (s : AdaptivePollWaiter) : AdaptivePollWaiter :=
  { s with current := s.base }

/-- `AdaptivePollWaiter.wait(timeout)`: returns (new state, slept duration,
returned boolean). -/
def AdaptivePollWaiter.wait (s : AdaptivePollWaiter) (timeout : ℚ) :
    AdaptivePollWaiter × ℚ × Bool :=
  let sleepFor := min (max 0 timeout) s.current
  (if 0 < timeout then
    { s with current := min s.maxIv (max s.base (s.current * (3 / 2))) }
  else s, sleepFor, false)

/-- `FileChangeWaiter` state: stored paths, the `enabled` flag, the poller,
the optional native watcher, and the `_use_inotify` strategy flag. -/
structure FileChangeWaiter where
  paths : List String
  enabled : Bool
  poll : AdaptivePollWaiter
  inotify : Option InotifyWaiter
  useInotify : Bool

/-- `FileChangeWaiter.update_paths(paths)`; `raises` abstracts
`self._inotify.watch_paths` raising (the demotion trigger). -/
def FileChangeWaiter.updatePaths (env : Env) (raises : Bool) (w : FileChangeWaiter)
    (ps : List String) : FileChangeWaiter :=
  let w := { w with paths := ps.filter (fun s => !(s = "" : Bool)) }
  if w.useInotify then
    match w.inotify with
    | some ist =>
      if raises then { w with useInotify := false, inotify := none }
      else { w with inotify := some (InotifyWaiter.watchPaths env ist w.paths) }
    | none => w
  else w

/-- `FileChangeWaiter.__init__`: `_maybe_enable_inotify()` (native selected iff
enabled ∧ platform is linux ∧ backend construction succeeds) followed by
`update_paths(paths)`. -/
def FileChangeWaiter.init (enabled platformLinux constructOk : Bool) (env : Env)
    (updateRaises : Bool) (paths : List String) (pollInterval : ℚ) : FileChangeWaiter :=
  let w0 : FileChangeWaiter :=
    { paths := paths.filter (fun s => !(s = "" : Bool)),
      enabled := enabled,
      poll := AdaptivePollWaiter.init pollInterval (1 / 2),
      inotify := none,
      useInotify := false }
  let w1 :=
    if enabled && platformLinux && constructOk then
      { w0 with inotify := some InotifyWaiter.initState, useInotify := true }
    else w0
  FileChangeWaiter.updatePaths env updateRaises w1 w1.paths

/-- `FileChangeWaiter.close()`: closes and discards the native watcher
(`self._inotify = None`); `_use_inotify` is left as-is, as in the source. -/
def FileChangeWaiter.close (w : FileChangeWaiter) : FileChangeWaiter :=
  { w with inotify := none }

/-- `FileChangeWaiter.reset_backoff()`. -/
def FileChangeWaiter.resetBackoff (w : FileChangeWaiter) : FileChangeWaiter :=
  { w with poll := w.poll.reset }

/-- `FileChangeWaiter.wait(timeout)`: returns (new state, returned boolean);
`raises` abstracts `self._inotify.wait` raising (the demotion trigger). -/
def FileChangeWaiter.waitStep (env : Env) (raises : Bool) (w : FileChangeWaiter)
    (timeout : ℚ) : FileChangeWaiter × Bool :=
  match w.useInotify, w.inotify with
  | true, some ist =>
    if raises then
      let w' := { w with useInotify := false, inotify := none }
      let r := w'.poll.wait timeout
      ({ w' with poll := r.1 }, r.2.2)
    else
      let r := InotifyWaiter.wait env ist timeout
      ({ w with inotify := some r.1 }, r.2)
  | _, _ =>
    let r := w.poll.wait timeout
    ({ w with poll := r.1 }, r.2.2)

/-- One public call on a `FileChangeWaiter`; the `raises` oracles say whether
the native sub-call raises during that call. -/
inductive FCall where
  | wait (raises : Bool) (t : ℚ)
  | update (raises : Bool) (ps : List String)
  | close
  | resetBackoff

/-- Effect of one public call on the facade state. -/
def FileChangeWaiter.step (env : Env) (w : FileChangeWaiter) : FCall → FileChangeWaiter
  | FCall.wait r t => (FileChangeWaiter.waitStep env r w t).1
  | FCall.update r ps => FileChangeWaiter.updatePaths env r w ps
  | FCall.close => FileChangeWaiter.close w
  | FCall.resetBackoff => FileChangeWaiter.resetBackoff w

/-- A sequence of public calls on the facade. -/
def FileChangeWaiter.run (env : Env) (w : FileChangeWaiter) (cs : List FCall) :
    FileChangeWaiter :=
  cs.foldl (FileChangeWaiter.step env) w

/-- One public call on an `InotifyWaiter`. -/
inductive ICall where
  | wait (t : ℚ)
  | watch (ps : List String)
  | close

/-- Effect of one public call on an `InotifyWaiter`. -/
def InotifyWaiter.step (env : Env) (st : InotifyWaiter) : ICall → InotifyWaiter
  | ICall.wait t => (InotifyWaiter.wait env st t).1
  | ICall.watch ps => InotifyWaiter.watchPaths env st ps
  | ICall.close => InotifyWaiter.close st

/-- A sequence of public calls on an `InotifyWaiter`. -/
def InotifyWaiter.run (env : Env) (st : InotifyWaiter) (cs : List ICall) : InotifyWaiter :=
  cs.foldl (InotifyWaiter.step env) st

/-- Little-endian 32-bit value of four bytes (`struct.unpack_from` field). -/
def le4 (a b c d : Nat) : Nat := a + 256 * b + 65536 * c + 16777216 * d

/-- Reinterpret a 32-bit unsigned value as the signed `int` field `wd`. -/
def toInt32 (n : Nat) : Int := if n < 2 ^ 31 then (n : Int) else (n : Int) - 2 ^ 32

/-- `raw_name.split(b"\x00", 1)[0]`: the name bytes up to the first NUL. -/
def nulTrunc (l : List Nat) : List Nat := l.takeWhile (fun b => !(b = 0 : Bool))

/-- The decode loop of `_CtypesInotifyBackend.read`: consume 16-byte headers
(`struct.calcsize("iIII")`) while at least one fits, slice off `name_len`
bytes of NUL-padded name when `name_len > 0`. `dec` stands for
`bytes.decode("utf-8", errors="ignore")`. -/
def parseEvents (dec : List Nat → String) : List Nat → List InotifyEvent
  | a0 :: a1 :: a2 :: a3 :: b0 :: b1 :: b2 :: b3 :: c0 :: c1 :: c2 :: c3 ::
      d0 :: d1 :: d2 :: d3 :: rest =>
    let wd := toInt32 (le4 a0 a1 a2 a3)
    let mask := le4 b0 b1 b2 b3
    let cookie := le4 c0 c1 c2 c3
    let nameLen := le4 d0 d1 d2 d3
    if nameLen ≠ 0 then
      let raw := rest.take nameLen
      { wd := wd, mask := mask, cookie := cookie, name := dec (nulTrunc raw) }
        :: parseEvents dec (rest.drop nameLen)
    else
      { wd := wd, mask := mask, cookie := cookie, name := "" } :: parseEvents dec rest
  | _ => []
termination_by l => l.length
decreasing_by
  · simp [List.length_drop]; omega
  · simp; omega

/-- One well-formed native inotify record: header field values in range,
`nameBytes` is the NUL-padded name payload whose length is the `len` field. -/
structure InotifyRecord where
  wd : Int
  mask : Nat
  cookie : Nat
  nameBytes : List Nat

/-- Range constraints making a record encodable in the native layout. -/
def InotifyRecord.wf (r : InotifyRecord) : Prop :=
  -2 ^ 31 ≤ r.wd ∧ r.wd < 2 ^ 31 ∧ r.mask < 2 ^ 32 ∧ r.cookie < 2 ^ 32 ∧
    r.nameBytes.length < 2 ^ 32

/-- Little-endian 4-byte encoding of a 32-bit value. -/
def le32 (n : Nat) : List Nat :=
  [n % 256, n / 256 % 256, n / 65536 % 256, n / 16777216 % 256]

/-- The two's-complement 32-bit pattern of a signed `int` field. -/
def intBits32 (i : Int) : Nat := (i % 2 ^ 32).toNat

/-- The native byte layout of one record: `iIII` header then the name bytes. -/
def InotifyRecord.encode (r : InotifyRecord) : List Nat :=
  le32 (intBits32 r.wd) ++ le32 r.mask ++ le32 r.cookie ++
    le32 r.nameBytes.length ++ r.nameBytes

/-- The event the decode loop should produce for one record. -/
def InotifyRecord.toEvent (dec : List Nat → String) (r : InotifyRecord) : InotifyEvent :=
  { wd := r.wd, mask := r.mask, cookie := r.cookie,
    name := if r.nameBytes.length ≠ 0 then dec (nulTrunc r.nameBytes) else "" }

/-- A buffer that is a concatenation of well-formed records. -/
def encodeAll (rs : List InotifyRecord) : List Nat :=
  (rs.map InotifyRecord.encode).flatten

/-- Every branch of the event loop reports "changed". -/
theorem InotifyWaiter.waitLoop_snd (env : Env) (st : InotifyWaiter)
    (evs : List InotifyEvent) : (InotifyWaiter.waitLoop env st evs).2 = true := by
  induction evs with
  | nil => rfl
  | cons ev rest ih =>
    rw [InotifyWaiter.waitLoop]
    split
    · rfl
    · split
      · split <;> rfl
      · split
        · split <;> (simp only []; split <;> rfl)
        · exact ih

/-- C1: `InotifyWaiter.wait` reports "changed" exactly when the backend's
read returned at least one decoded event: no events (pure timeout) gives
`false`, any nonempty batch gives `true`, whatever the events' masks or
names and whether or not any name matches a tracked file. -/
theorem wait_changed_iff_backend_events (env : Env) (st : InotifyWaiter) (t : ℚ) :
    (InotifyWaiter.wait env st t).2 =
      !(env.read (InotifyWaiter.timeoutMs t)).isEmpty := by
  unfold InotifyWaiter.wait InotifyWaiter.waitEvents
  split
  · simp [*]
  · simp [InotifyWaiter.waitLoop_snd, *]

/-- C7: `AdaptivePollWaiter.wait` returns `false` for every timeout and every
poller state: the poller never itself reports a change. -/
theorem poll_wait_always_false (s : AdaptivePollWaiter) (t : ℚ) :
    (s.wait t).2.2 = false := rfl

/-- A trivial environment used by concrete witnesses and counterexamples. -/
def envTriv : Env :=
  { pathExists := fun _ => false, isDir := fun _ => false, parent := fun _ => "",
    fileName := fun _ => "", addOk := fun _ _ => false, read := fun _ => [] }

/-- The run of §8's scenario: poller built with `base=0.05, max=0.5`, then
repeated `wait(timeout=1.0)` calls. -/
def pollSeq : Nat → AdaptivePollWaiter
  | 0 => AdaptivePollWaiter.init (1 / 20) (1 / 2)
  | n + 1 => ((pollSeq n).wait 1).1

/-- Effective sleep duration of the (n+1)-st `wait(1.0)` call in that run. -/
def sleepSeq (n : Nat) : ℚ := ((pollSeq n).wait 1).2.1

/-- One step of the `pollSeq` run: the `timeout > 0` branch of `wait`. -/
theorem pollSeq_step (n : Nat) :
    (pollSeq (n + 1)).current =
        min (pollSeq n).maxIv (max (pollSeq n).base ((pollSeq n).current * (3 / 2))) ∧
      (pollSeq (n + 1)).base = (pollSeq n).base ∧
      (pollSeq (n + 1)).maxIv = (pollSeq n).maxIv := by
  have h1 : (0 : ℚ) < 1 := by norm_num
  refine ⟨?_, ?_, ?_⟩ <;>
    simp only [pollSeq, AdaptivePollWaiter.wait, if_pos h1]

/-- Invariants of the `pollSeq` run: base and cap are fixed, and the current
interval stays within `[base, max]`. -/
theorem pollSeq_inv (n : Nat) :
    (pollSeq n).base = 1 / 20 ∧ (pollSeq n).maxIv = 1 / 2 ∧
      1 / 20 ≤ (pollSeq n).current ∧ (pollSeq n).current ≤ 1 / 2 := by
  induction n with
  | zero =>
    refine ⟨?_, ?_, ?_, ?_⟩ <;> norm_num [pollSeq, AdaptivePollWaiter.init]
  | succ n ih =>
    obtain ⟨hb, hm, hlo, hhi⟩ := ih
    obtain ⟨hc, hb', hm'⟩ := pollSeq_step n
    refine ⟨hb'.trans hb, hm'.trans hm, ?_, ?_⟩
    · rw [hc, hm, hb]
      exact le_min (by norm_num) (le_max_left _ _)
    · rw [hc, hm]
      exact min_le_left _ _

/-- The current interval is the effective sleep in the `pollSeq` run, since it
never exceeds the cap 1/2 < 1 = timeout. -/
theorem sleepSeq_eq_current (n : Nat) : sleepSeq n = (pollSeq n).current := by
  obtain ⟨_, _, _, hhi⟩ := pollSeq_inv n
  have : max (0 : ℚ) 1 = 1 := by norm_num
  simp only [sleepSeq, AdaptivePollWaiter.wait, this]
  exact min_eq_right (le_trans hhi (by norm_num))

/-- C6: the effective sleep of `AdaptivePollWaiter.wait(timeout)` equals
`min(max(0, timeout), current)` and never exceeds a nonnegative requested
timeout; a wait with `timeout > 0` updates the interval to
`min(max, max(base, current * 1.5))`; with `base=0.05, max=0.5` and repeated
`wait(1.0)` the sleep durations are non-decreasing, capped at 0.5, starting
0.05, 0.075, 0.1125; `reset()` restores the current interval to base, so the
sequence restarts at 0.05. -/
theorem adaptive_poll_interval_policy :
    (∀ (s : AdaptivePollWaiter) (t : ℚ),
      (s.wait t).2.1 = min (max 0 t) s.current ∧ (0 ≤ t → (s.wait t).2.1 ≤ t)) ∧
    (∀ (s : AdaptivePollWaiter) (t : ℚ), 0 < t →
      ((s.wait t).1).current = min s.maxIv (max s.base (s.current * (3 / 2)))) ∧
    (∀ n, sleepSeq n ≤ sleepSeq (n + 1)) ∧
    (∀ n, sleepSeq n ≤ 1 / 2) ∧
    sleepSeq 0 = 1 / 20 ∧ sleepSeq 1 = 3 / 40 ∧ sleepSeq 2 = 9 / 80 ∧
    (∀ s : AdaptivePollWaiter, s.reset.current = s.base) ∧
    (((pollSeq 5).reset.wait 1).2.1 = 1 / 20) := by
  have hsleep : ∀ (s : AdaptivePollWaiter) (t : ℚ),
      (s.wait t).2.1 = min (max 0 t) s.current := fun s t => rfl
  refine ⟨fun s t => ⟨rfl, fun ht => ?_⟩, fun s t ht => ?_, fun n => ?_, fun n => ?_,
      ?_, ?_, ?_, fun s => rfl, ?_⟩
  · rw [hsleep]
    exact le_trans (min_le_left _ _) (by rw [max_eq_right ht])
  · simp only [AdaptivePollWaiter.wait, if_pos ht]
  · obtain ⟨hb, hm, hlo, hhi⟩ := pollSeq_inv n
    obtain ⟨hc, _, _⟩ := pollSeq_step n
    rw [sleepSeq_eq_current, sleepSeq_eq_current, hc, hm, hb]
    refine le_min hhi (le_trans ?_ (le_max_right _ _))
    nlinarith [hlo]
  · rw [sleepSeq_eq_current]
    exact (pollSeq_inv n).2.2.2
  · rw [sleepSeq_eq_current]
    norm_num [pollSeq, AdaptivePollWaiter.init]
  · rw [sleepSeq_eq_current]
    obtain ⟨hc, _, _⟩ := pollSeq_step 0
    rw [hc, (pollSeq_inv 0).1, (pollSeq_inv 0).2.1]
    norm_num [pollSeq, AdaptivePollWaiter.init]
  · rw [sleepSeq_eq_current]
    obtain ⟨hc1, _, _⟩ := pollSeq_step 1
    obtain ⟨hc0, _, _⟩ := pollSeq_step 0
    rw [hc1, (pollSeq_inv 1).1, (pollSeq_inv 1).2.1, hc0,
      (pollSeq_inv 0).1, (pollSeq_inv 0).2.1]
    norm_num [pollSeq, AdaptivePollWaiter.init]
  · have hb : (pollSeq 5).base = 1 / 20 := (pollSeq_inv 5).1
    show min (max 0 1) (pollSeq 5).reset.current = 1 / 20
    rw [AdaptivePollWaiter.reset, hb]
    norm_num

/-- Witness for C6: the interval-growth clause applied at a concrete state and
timeout with its positivity hypothesis discharged. -/
theorem adaptive_poll_interval_policy_witness :
    (0 : ℚ) < 1 ∧
      (((AdaptivePollWaiter.init (1 / 20) (1 / 2)).wait 1).1).current =
        min (1 / 2) (max (1 / 20) ((1 / 20) * (3 / 2))) := by
  refine ⟨by norm_num, ?_⟩
  have h := adaptive_poll_interval_policy.2.1 (AdaptivePollWaiter.init (1 / 20) (1 / 2)) 1
    (by norm_num)
  rw [h]
  norm_num [AdaptivePollWaiter.init]

/-- C9: a negative timeout is clamped to zero, not rejected:
`InotifyWaiter.wait`, `AdaptivePollWaiter.wait` and hence
`FileChangeWaiter.wait` behave on a negative timeout exactly as on a zero
timeout. -/
theorem negative_timeout_clamped (t : ℚ) (h : t < 0) :
    (∀ (env : Env) (st : InotifyWaiter),
      InotifyWaiter.wait env st t = InotifyWaiter.wait env st 0) ∧
    (∀ s : AdaptivePollWaiter, s.wait t = s.wait 0) ∧
    (∀ (env : Env) (r : Bool) (w : FileChangeWaiter),
      FileChangeWaiter.waitStep env r w t = FileChangeWaiter.waitStep env r w 0) := by
  have hm : max (0 : ℚ) t = 0 := max_eq_left h.le
  have htm : InotifyWaiter.timeoutMs t = InotifyWaiter.timeoutMs 0 := by
    unfold InotifyWaiter.timeoutMs
    rw [hm, max_self]
  have hw : ∀ (env : Env) (st : InotifyWaiter),
      InotifyWaiter.wait env st t = InotifyWaiter.wait env st 0 := by
    intro env st
    unfold InotifyWaiter.wait
    rw [htm]
  have hp : ∀ s : AdaptivePollWaiter, s.wait t = s.wait 0 := by
    intro s
    unfold AdaptivePollWaiter.wait
    rw [hm, max_self, if_neg (not_lt.mpr h.le), if_neg (lt_irrefl (0 : ℚ))]
  refine ⟨hw, hp, fun env r w => ?_⟩
  unfold FileChangeWaiter.waitStep
  simp only [hp, hw]

/-- Witness for C9: the clamping applied at the concrete timeout −1. -/
theorem negative_timeout_clamped_witness :
    (-1 : ℚ) < 0 ∧
      (AdaptivePollWaiter.init (1 / 20) (1 / 2)).wait (-1) =
        (AdaptivePollWaiter.init (1 / 20) (1 / 2)).wait 0 :=
  ⟨by norm_num, (negative_timeout_clamped (-1) (by norm_num)).2.1 _⟩

/-- A watch-registration attempt never touches the overflow flag. -/
theorem tryAddWatch_overflowed (env : Env) (st : InotifyWaiter) (p : String) (m : Nat)
    (k : Kind) : ((InotifyWaiter.tryAddWatch env st p m k).1).overflowed = st.overflowed := by
  by_cases hc : env.addOk p m = true <;>
    simp [InotifyWaiter.tryAddWatch, InotifyWaiter.addWatch, hc]

/-- A file-watch refresh never touches the overflow flag. -/
theorem refreshFileWatch_overflowed (env : Env) (st : InotifyWaiter) (p : String) :
    (InotifyWaiter.refreshFileWatch env st p).overflowed = st.overflowed := by
  unfold InotifyWaiter.refreshFileWatch
  split
  · rw [tryAddWatch_overflowed]
  · rfl

/-- The event loop never clears a set overflow flag. -/
theorem waitLoop_overflowed_mono (env : Env) (st : InotifyWaiter) (evs : List InotifyEvent)
    (h : st.overflowed = true) :
    ((InotifyWaiter.waitLoop env st evs).1).overflowed = true := by
  induction evs with
  | nil => exact h
  | cons ev rest ih =>
    rw [InotifyWaiter.waitLoop]
    split
    · rfl
    · split
      · split <;> first
          | (rw [refreshFileWatch_overflowed]; exact h)
          | exact h
      · split
        · split <;> (simp only []; split) <;> first
            | (rw [refreshFileWatch_overflowed]; exact h)
            | exact h
        · exact ih

/-- `_watch_one`'s fallback section never touches the overflow flag. -/
theorem watchRest_overflowed (env : Env) (st : InotifyWaiter) (p par : String) (ex : Bool) :
    (InotifyWaiter.watchRest env st p par ex).overflowed = st.overflowed := by
  unfold InotifyWaiter.watchRest
  split <;> simp only [tryAddWatch_overflowed]

/-- `_watch_one` never touches the overflow flag. -/
theorem watchOne_overflowed (env : Env) (st : InotifyWaiter) (p : String) :
    (InotifyWaiter.watchOne env st p).overflowed = st.overflowed := by
  unfold InotifyWaiter.watchOne
  simp only []
  split
  · split
    · next st2 heq =>
      have h := tryAddWatch_overflowed env
        { st with tracked := dictInsert p (env.parent p) st.tracked } p DIR_MASK Kind.dir
      rw [heq] at h
      exact h
    · rw [watchRest_overflowed]
  · rw [watchRest_overflowed]

/-- `watch_paths` never touches the overflow flag. -/
theorem watchPaths_overflowed (env : Env) (st : InotifyWaiter) (ps : List String) :
    (InotifyWaiter.watchPaths env st ps).overflowed = st.overflowed := by
  unfold InotifyWaiter.watchPaths
  suffices h : ∀ (l : List String) (s : InotifyWaiter),
      (l.foldl (InotifyWaiter.watchOne env) s).overflowed = s.overflowed by
    rw [h]
    rfl
  intro l
  induction l with
  | nil => intro s; rfl
  | cons q rest ih =>
    intro s
    rw [List.foldl_cons, ih, watchOne_overflowed]

/-- No public call on an `InotifyWaiter` ever clears a set overflow flag. -/
theorem istep_overflowed_mono (env : Env) (st : InotifyWaiter) (c : ICall)
    (h : st.overflowed = true) : (InotifyWaiter.step env st c).overflowed = true := by
  cases c with
  | wait t =>
    show ((InotifyWaiter.wait env st t).1).overflowed = true
    unfold InotifyWaiter.wait InotifyWaiter.waitEvents
    split
    · exact h
    · exact waitLoop_overflowed_mono env st _ h
  | watch ps =>
    show (InotifyWaiter.watchPaths env st ps).overflowed = true
    rw [watchPaths_overflowed]
    exact h
  | close => exact h

/-- C10: the `overflowed` flag is sticky: it starts `false` at construction,
and once `true` no subsequent `wait`, `watch_paths` or `close` call ever
resets it for the lifetime of the instance. -/
theorem overflowed_flag_sticky :
    InotifyWaiter.initState.overflowed = false ∧
    (∀ (env : Env) (st : InotifyWaiter) (c : ICall),
      st.overflowed = true → (InotifyWaiter.step env st c).overflowed = true) ∧
    (∀ (env : Env) (st : InotifyWaiter) (cs : List ICall),
      st.overflowed = true → (InotifyWaiter.run env st cs).overflowed = true) := by
  refine ⟨rfl, istep_overflowed_mono, ?_⟩
  intro env st cs h
  induction cs generalizing st with
  | nil => exact h
  | cons c rest ih => exact ih _ (istep_overflowed_mono env st c h)

/-- Witness for C10: stickiness applied to a concrete overflowed state and a
concrete call sequence. -/
theorem overflowed_flag_sticky_witness :
    ({ InotifyWaiter.initState with overflowed := true } : InotifyWaiter).overflowed = true ∧
      (InotifyWaiter.run envTriv { InotifyWaiter.initState with overflowed := true }
        [ICall.close, ICall.wait 1, ICall.watch ["/tmp/a"]]).overflowed = true :=
  ⟨rfl, overflowed_flag_sticky.2.2 envTriv _ _ rfl⟩

/-- Events that set no overflow and no moved/deleted-self bit and carry no
name fall through the event loop without effect. -/
theorem waitLoop_skip (env : Env) (st : InotifyWaiter) (pre rest : List InotifyEvent)
    (hpre : ∀ e ∈ pre, e.mask &&& MASK_Q_OVERFLOW = 0 ∧
      e.mask &&& (MASK_MOVE_SELF ||| MASK_DELETE_SELF) = 0 ∧ e.name = "") :
    InotifyWaiter.waitLoop env st (pre ++ rest) = InotifyWaiter.waitLoop env st rest := by
  induction pre with
  | nil => rfl
  | cons e pre ih =>
    obtain ⟨h1, h2, h3⟩ := hpre e (List.mem_cons_self e pre)
    rw [List.cons_append, InotifyWaiter.waitLoop, if_neg (by simp [h1]),
      if_neg (by simp [h2]), if_neg (by simp [h3])]
    exact ih fun e he => hpre e (List.mem_cons_of_mem _ he)

/-- An overflow event at the head of the batch sets the flag and returns. -/
theorem waitLoop_overflow_head (env : Env) (st : InotifyWaiter) (ov : InotifyEvent)
    (post : List InotifyEvent) (hov : ov.mask &&& MASK_Q_OVERFLOW ≠ 0) :
    InotifyWaiter.waitLoop env st (ov :: post) = ({ st with overflowed := true }, true) := by
  rw [InotifyWaiter.waitLoop, if_pos hov]

/-- The environment of the C2 counterexample: the backend read returns a
moved-self event followed by an overflow event. -/
def envC2 : Env :=
  { envTriv with read := fun _ =>
      [⟨1, MASK_MOVE_SELF, 0, ""⟩, ⟨2, MASK_Q_OVERFLOW, 0, ""⟩] }

/-- C2 is false as stated: here the backend batch contains an overflow event,
but a moved-self event earlier in the batch returns "changed" first, so
`wait` returns `true` with `overflowed` still `false` — the overflow event's
position in the batch does matter. -/
theorem overflow_flag_missed_counterexample :
    ((⟨2, MASK_Q_OVERFLOW, 0, ""⟩ : InotifyEvent) ∈ envC2.read (InotifyWaiter.timeoutMs 1) ∧
      (⟨2, MASK_Q_OVERFLOW, 0, ""⟩ : InotifyEvent).mask &&& MASK_Q_OVERFLOW ≠ 0) ∧
    (InotifyWaiter.wait envC2 InotifyWaiter.initState 1).2 = true ∧
    (InotifyWaiter.wait envC2 InotifyWaiter.initState 1).1.overflowed = false := by
  refine ⟨⟨by decide, by decide⟩, by decide, by decide⟩

/-- C2 (amended): if the batch returned by the backend's read contains an
overflow event that is preceded only by non-terminating events (no overflow
bit, no moved/deleted-self bit, empty name), then `wait` sets
`overflowed := true` and returns `true`, whatever follows the overflow event. -/
theorem overflow_first_terminating_sets_flag (env : Env) (st : InotifyWaiter) (t : ℚ)
    (pre post : List InotifyEvent) (ov : InotifyEvent)
    (hread : env.read (InotifyWaiter.timeoutMs t) = pre ++ ov :: post)
    (hpre : ∀ e ∈ pre, e.mask &&& MASK_Q_OVERFLOW = 0 ∧
      e.mask &&& (MASK_MOVE_SELF ||| MASK_DELETE_SELF) = 0 ∧ e.name = "")
    (hov : ov.mask &&& MASK_Q_OVERFLOW ≠ 0) :
    InotifyWaiter.wait env st t = ({ st with overflowed := true }, true) := by
  unfold InotifyWaiter.wait InotifyWaiter.waitEvents
  rw [hread, if_neg (by simp), waitLoop_skip env st pre (ov :: post) hpre,
    waitLoop_overflow_head env st ov post hov]

/-- The environment of the C2 witness: the read returns one overflow event. -/
def envC2w : Env :=
  { envTriv with read := fun _ => [⟨1, MASK_Q_OVERFLOW, 0, ""⟩] }

/-- Witness for the amended C2, at a batch holding a single overflow event. -/
theorem overflow_first_terminating_sets_flag_witness :
    envC2w.read (InotifyWaiter.timeoutMs 1) =
        [] ++ (⟨1, MASK_Q_OVERFLOW, 0, ""⟩ : InotifyEvent) :: [] ∧
      (⟨1, MASK_Q_OVERFLOW, 0, ""⟩ : InotifyEvent).mask &&& MASK_Q_OVERFLOW ≠ 0 ∧
      InotifyWaiter.wait envC2w InotifyWaiter.initState 1 =
        ({ InotifyWaiter.initState with overflowed := true }, true) :=
  ⟨rfl, by decide,
    overflow_first_terminating_sets_flag envC2w InotifyWaiter.initState 1 [] []
      _ rfl (by simp) (by decide)⟩

/-- The environment of the C5 counterexample: the read returns one
deleted-self event; nothing exists on the filesystem. -/
def envC5 : Env :=
  { envTriv with read := fun _ => [⟨5, MASK_DELETE_SELF, 0, ""⟩] }

/-- The state of the C5 counterexample: one file-kind watch for "/f". -/
def stC5 : InotifyWaiter :=
  { wds := [(5, Kind.file, "/f")], tracked := [("/f", "/")], overflowed := false,
    nextWd := 6, addCalls := [] }

/-- C5 is false as stated: on a deleted-self event for a file-kind entry whose
path no longer exists, the claim demands the watches tagged for that path be
removed from the watch map, but `_refresh_file_watch` returns early on the
existence check and the map is left unchanged (the stale entry stays);
`wait` still returns `true`. -/
theorem refresh_skips_removal_counterexample :
    envC5.read (InotifyWaiter.timeoutMs 1) = [⟨5, MASK_DELETE_SELF, 0, ""⟩] ∧
    dictGet (5 : Int) stC5.wds = some (Kind.file, "/f") ∧
    envC5.pathExists "/f" = false ∧
    (InotifyWaiter.wait envC5 stC5 1).2 = true ∧
    (InotifyWaiter.wait envC5 stC5 1).1.wds = [(5, Kind.file, "/f")] := by
  refine ⟨rfl, by decide, rfl, by decide, by decide⟩

/-- C5 (amended): a moved-self/deleted-self event whose handle maps to a
file-kind entry delegates to `_refresh_file_watch` and reports "changed"; the
refresh removes the file-kind watches for that path and re-adds a fresh
file-mask watch only when the path exists at that instant; when the path does
not exist the watch map is left entirely unchanged (the stale entry is
retained, not removed). -/
theorem refresh_on_self_event_behavior (env : Env) (st : InotifyWaiter) (t : ℚ)
    (ev : InotifyEvent) (rest : List InotifyEvent) (p : String)
    (hread : env.read (InotifyWaiter.timeoutMs t) = ev :: rest)
    (hovf : ev.mask &&& MASK_Q_OVERFLOW = 0)
    (hmv : ev.mask &&& (MASK_MOVE_SELF ||| MASK_DELETE_SELF) ≠ 0)
    (hwd : dictGet ev.wd st.wds = some (Kind.file, p)) :
    InotifyWaiter.wait env st t = (InotifyWaiter.refreshFileWatch env st p, true) ∧
    (env.pathExists p = false → InotifyWaiter.refreshFileWatch env st p = st) ∧
    (env.pathExists p = true →
      (InotifyWaiter.refreshFileWatch env st p).wds =
        (if env.addOk p FILE_MASK then
          dictInsert st.nextWd (Kind.file, p)
            (st.wds.filter (fun e => !(e.2.1 = Kind.file ∧ e.2.2 = p : Bool)))
        else st.wds.filter (fun e => !(e.2.1 = Kind.file ∧ e.2.2 = p : Bool)))) := by
  refine ⟨?_, ?_, ?_⟩
  · unfold InotifyWaiter.wait InotifyWaiter.waitEvents
    rw [hread, if_neg (by simp), InotifyWaiter.waitLoop, if_neg (by simp [hovf]),
      if_pos hmv, hwd]
  · intro hex
    unfold InotifyWaiter.refreshFileWatch
    rw [hex]
    simp
  · intro hex
    unfold InotifyWaiter.refreshFileWatch
    rw [hex]
    by_cases hadd : env.addOk p FILE_MASK = true <;>
      simp [InotifyWaiter.tryAddWatch, InotifyWaiter.addWatch, hadd]

/-- The environment of the C5 witness: one moved-self event, the path exists
and re-registration succeeds. -/
def envC5w : Env :=
  { envTriv with
    pathExists := fun _ => true,
    addOk := fun _ _ => true,
    read := fun _ => [⟨5, MASK_MOVE_SELF, 0, ""⟩] }

/-- The state of the C5 witness. -/
def stC5w : InotifyWaiter :=
  { wds := [(5, Kind.file, "/f"), (2, Kind.dir, "/")], tracked := [("/f", "/")],
    overflowed := false, nextWd := 6, addCalls := [] }

/-- Witness for the amended C5, at a concrete moved-self event. -/
theorem refresh_on_self_event_behavior_witness :
    envC5w.read (InotifyWaiter.timeoutMs 1) = [⟨5, MASK_MOVE_SELF, 0, ""⟩] ∧
      dictGet (5 : Int) stC5w.wds = some (Kind.file, "/f") ∧
      InotifyWaiter.wait envC5w stC5w 1 =
        (InotifyWaiter.refreshFileWatch envC5w stC5w "/f", true) :=
  ⟨rfl, by decide,
    (refresh_on_self_event_behavior envC5w stC5w 1 _ [] "/f" rfl (by decide) (by decide)
      (by decide)).1⟩

/-- Once the native watcher is discarded, `wait` runs only the poller,
whatever the oracles say. -/
theorem waitStep_demoted (env : Env) (r : Bool) (w : FileChangeWaiter) (t : ℚ)
    (h : w.inotify = none) :
    FileChangeWaiter.waitStep env r w t =
      ({ w with poll := (w.poll.wait t).1 }, (w.poll.wait t).2.2) := by
  obtain ⟨ps, en, poll, ino, use⟩ := w
  subst h
  cases use <;> rfl

/-- Once the native watcher is discarded, `update_paths` only stores the
filtered path list. -/
theorem updatePaths_demoted (env : Env) (r : Bool) (w : FileChangeWaiter)
    (ps : List String) (h : w.inotify = none) :
    FileChangeWaiter.updatePaths env r w ps =
      { w with paths := ps.filter (fun s => !(s = "" : Bool)) } := by
  obtain ⟨ps0, en, poll, ino, use⟩ := w
  subst h
  cases use <;> rfl

/-- No public call re-creates a discarded native watcher. -/
theorem step_keeps_demoted (env : Env) (w : FileChangeWaiter) (c : FCall)
    (h : w.inotify = none) : (FileChangeWaiter.step env w c).inotify = none := by
  cases c with
  | wait r t =>
    show (FileChangeWaiter.waitStep env r w t).1.inotify = none
    rw [waitStep_demoted env r w t h]
    exact h
  | update r ps =>
    show (FileChangeWaiter.updatePaths env r w ps).inotify = none
    rw [updatePaths_demoted env r w ps h]
    exact h
  | close => rfl
  | resetBackoff => exact h

/-- C3: the strategy transition Native → Polling of the facade is one-way:
a raising native `wait` demotes, a raising native `watch_paths` inside
`update_paths` demotes, a failed backend construction selects polling from
the start; once the native watcher is discarded no reachable sequence of
public calls re-creates it, and `wait`/`update_paths` then use only the
poller. -/
theorem native_demotion_one_way :
    (∀ (env : Env) (w : FileChangeWaiter) (t : ℚ) (i : InotifyWaiter),
      w.useInotify = true → w.inotify = some i →
        (FileChangeWaiter.waitStep env true w t).1.useInotify = false ∧
        (FileChangeWaiter.waitStep env true w t).1.inotify = none) ∧
    (∀ (env : Env) (w : FileChangeWaiter) (ps : List String) (i : InotifyWaiter),
      w.useInotify = true → w.inotify = some i →
        (FileChangeWaiter.updatePaths env true w ps).useInotify = false ∧
        (FileChangeWaiter.updatePaths env true w ps).inotify = none) ∧
    (∀ (env : Env) (ur : Bool) (paths : List String) (q : ℚ) (en pl : Bool),
      (FileChangeWaiter.init en pl false env ur paths q).inotify = none ∧
      (FileChangeWaiter.init en pl false env ur paths q).useInotify = false) ∧
    (∀ (env : Env) (w : FileChangeWaiter) (cs : List FCall),
      w.inotify = none → (FileChangeWaiter.run env w cs).inotify = none) ∧
    (∀ (env : Env) (r : Bool) (w : FileChangeWaiter) (t : ℚ),
      w.inotify = none → FileChangeWaiter.waitStep env r w t =
        ({ w with poll := (w.poll.wait t).1 }, (w.poll.wait t).2.2)) ∧
    (∀ (env : Env) (r : Bool) (w : FileChangeWaiter) (ps : List String),
      w.inotify = none → FileChangeWaiter.updatePaths env r w ps =
        { w with paths := ps.filter (fun s => !(s = "" : Bool)) }) := by
  refine ⟨?_, ?_, ?_, ?_, waitStep_demoted, updatePaths_demoted⟩
  · intro env w t i hu hi
    obtain ⟨ps, en, poll, ino, use⟩ := w
    subst hi
    cases use
    · cases hu
    · exact ⟨rfl, rfl⟩
  · intro env w ps i hu hi
    obtain ⟨ps0, en, poll, ino, use⟩ := w
    subst hi
    cases use
    · cases hu
    · exact ⟨rfl, rfl⟩
  · intro env ur paths q en pl
    unfold FileChangeWaiter.init
    constructor
    · rw [updatePaths_demoted _ _ _ _ (by simp)]
      simp
    · rw [updatePaths_demoted _ _ _ _ (by simp)]
      simp
  · intro env w cs h
    induction cs generalizing w with
    | nil => exact h
    | cons c rest ih => exact ih _ (step_keeps_demoted env w c h)

/-- A concrete already-demoted facade state. -/
def fcwDemoted : FileChangeWaiter :=
  { paths := ["/f"], enabled := true, poll := AdaptivePollWaiter.init (1 / 20) (1 / 2),
    inotify := none, useInotify := false }

/-- Witness for C3: the absorbing clause applied to a concrete demoted state
and a concrete call sequence. -/
theorem native_demotion_one_way_witness :
    fcwDemoted.inotify = none ∧
      (FileChangeWaiter.run envTriv fcwDemoted
        [FCall.update false ["/g"], FCall.wait false 1, FCall.close,
          FCall.resetBackoff]).inotify = none :=
  ⟨rfl, native_demotion_one_way.2.2.2.1 envTriv fcwDemoted _ rfl⟩

/-- A dict assignment makes the assigned pair a member. -/
theorem mem_dictInsert_self {α β : Type} [DecidableEq α] (k : α) (v : β)
    (l : List (α × β)) : (k, v) ∈ dictInsert k v l := by
  induction l with
  | nil => exact List.mem_singleton.mpr rfl
  | cons e rest ih =>
    obtain ⟨a, b⟩ := e
    unfold dictInsert
    split
    · exact List.mem_cons_self _ _
    · exact List.mem_cons_of_mem _ ih

/-- A dict assignment under a different key preserves membership. -/
theorem mem_dictInsert_of_ne {α β : Type} [DecidableEq α] {k' : α} {v' : β} (k : α) (v : β)
    (l : List (α × β)) (h : (k', v') ∈ l) (hne : k' ≠ k) : (k', v') ∈ dictInsert k v l := by
  induction l with
  | nil => cases h
  | cons e rest ih =>
    obtain ⟨a, b⟩ := e
    unfold dictInsert
    split
    · next heq =>
      rcases List.mem_cons.mp h with h1 | h2
      · exact absurd ((congrArg Prod.fst h1).trans heq) hne
      · exact List.mem_cons_of_mem _ h2
    · rcases List.mem_cons.mp h with h1 | h2
      · exact h1 ▸ List.mem_cons_self _ _
      · exact List.mem_cons_of_mem _ (ih h2)

/-- Members of a dict after an assignment: the new pair or an old member. -/
theorem mem_dictInsert_elim {α β : Type} [DecidableEq α] {k : α} {v : β} {e : α × β}
    {l : List (α × β)} (h : e ∈ dictInsert k v l) : e = (k, v) ∨ e ∈ l := by
  induction l with
  | nil => simpa [dictInsert] using h
  | cons a rest ih =>
    unfold dictInsert at h
    split at h
    · rcases List.mem_cons.mp h with h1 | h2
      · exact Or.inl h1
      · exact Or.inr (List.mem_cons_of_mem _ h2)
    · rcases List.mem_cons.mp h with h1 | h2
      · exact Or.inr (h1 ▸ List.mem_cons_self _ _)
      · rcases ih h2 with h3 | h4
        · exact Or.inl h3
        · exact Or.inr (List.mem_cons_of_mem _ h4)

/-- Well-formed waiter state: every recorded handle is below the allocator
counter (handles are unique per backend instance). -/
def InotifyWaiter.wf (st : InotifyWaiter) : Prop := ∀ e ∈ st.wds, e.1 < st.nextWd

/-- A watch-registration attempt preserves well-formedness, grows the
counter, and preserves watch entries, log entries and the tracked map. -/
theorem tryAddWatch_facts (env : Env) (st : InotifyWaiter) (p : String) (m : Nat) (k : Kind)
    (h : st.wf) :
    ((InotifyWaiter.tryAddWatch env st p m k).1).wf ∧
    st.nextWd ≤ ((InotifyWaiter.tryAddWatch env st p m k).1).nextWd ∧
    (∀ e ∈ st.wds, e ∈ ((InotifyWaiter.tryAddWatch env st p m k).1).wds) ∧
    (∀ c ∈ st.addCalls, c ∈ ((InotifyWaiter.tryAddWatch env st p m k).1).addCalls) := by
  by_cases hok : env.addOk p m = true
  · simp only [InotifyWaiter.tryAddWatch, InotifyWaiter.addWatch, hok, if_true]
    refine ⟨?_, show st.nextWd ≤ st.nextWd + 1 by omega, ?_, ?_⟩
    · intro e he
      rcases mem_dictInsert_elim he with h1 | h2
      · rw [h1]
        show st.nextWd < st.nextWd + 1
        omega
      · have hlt := h e h2
        show e.1 < st.nextWd + 1
        omega
    · intro e he
      obtain ⟨k', v'⟩ := e
      exact mem_dictInsert_of_ne _ _ _ he (ne_of_lt (h _ he))
    · intro c hc
      exact List.mem_append_left _ hc
  · simp only [InotifyWaiter.tryAddWatch, InotifyWaiter.addWatch, hok, if_false]
    exact ⟨h, le_refl _, fun e he => he, fun c hc => hc⟩

/-- A successful watch registration records the new watch and logs the call. -/
theorem tryAddWatch_mem_new (env : Env) (st : InotifyWaiter) (p : String) (m : Nat)
    (k : Kind) (hok : env.addOk p m = true) :
    (st.nextWd, k, p) ∈ ((InotifyWaiter.tryAddWatch env st p m k).1).wds ∧
    (p, m) ∈ ((InotifyWaiter.tryAddWatch env st p m k).1).addCalls := by
  simp only [InotifyWaiter.tryAddWatch, InotifyWaiter.addWatch, hok, if_true]
  exact ⟨mem_dictInsert_self _ _ _,
    List.mem_append_right _ (List.mem_singleton.mpr rfl)⟩

/-- The fallback section of `_watch_one` preserves well-formedness and
existing entries. -/
theorem watchRest_facts (env : Env) (st : InotifyWaiter) (p par : String) (ex : Bool)
    (h : st.wf) :
    (InotifyWaiter.watchRest env st p par ex).wf ∧
    st.nextWd ≤ (InotifyWaiter.watchRest env st p par ex).nextWd ∧
    (∀ e ∈ st.wds, e ∈ (InotifyWaiter.watchRest env st p par ex).wds) ∧
    (∀ c ∈ st.addCalls, c ∈ (InotifyWaiter.watchRest env st p par ex).addCalls) := by
  obtain ⟨h1, h2, h3, h4⟩ := tryAddWatch_facts env st par DIR_MASK Kind.dir h
  obtain ⟨g1, g2, g3, g4⟩ := tryAddWatch_facts env
    (InotifyWaiter.tryAddWatch env st par DIR_MASK Kind.dir).1 p FILE_MASK Kind.file h1
  unfold InotifyWaiter.watchRest
  cases ex
  · exact ⟨h1, h2, h3, h4⟩
  · exact ⟨g1, le_trans h2 g2, fun e he => g3 e (h3 e he), fun c hc => g4 c (h4 c hc)⟩

/-- When the parent-directory registration succeeds, the fallback section
records a directory watch on the parent (and, when the path exists and its
registration succeeds, a file watch on the path). -/
theorem watchRest_adds (env : Env) (st : InotifyWaiter) (p par : String) (ex : Bool)
    (h : st.wf) (hokd : env.addOk par DIR_MASK = true) :
    ((∃ w, (w, Kind.dir, par) ∈ (InotifyWaiter.watchRest env st p par ex).wds) ∧
      (par, DIR_MASK) ∈ (InotifyWaiter.watchRest env st p par ex).addCalls) ∧
    (ex = true → env.addOk p FILE_MASK = true →
      (∃ w, (w, Kind.file, p) ∈ (InotifyWaiter.watchRest env st p par ex).wds) ∧
      (p, FILE_MASK) ∈ (InotifyWaiter.watchRest env st p par ex).addCalls) := by
  obtain ⟨hm, hl⟩ := tryAddWatch_mem_new env st par DIR_MASK Kind.dir hokd
  obtain ⟨h1, _, _, _⟩ := tryAddWatch_facts env st par DIR_MASK Kind.dir h
  unfold InotifyWaiter.watchRest
  cases ex
  · refine ⟨⟨⟨st.nextWd, hm⟩, hl⟩, ?_⟩
    intro hex
    cases hex
  · obtain ⟨g1, g2, g3, g4⟩ := tryAddWatch_facts env
      (InotifyWaiter.tryAddWatch env st par DIR_MASK Kind.dir).1 p FILE_MASK Kind.file h1
    refine ⟨⟨⟨st.nextWd, g3 _ hm⟩, g4 _ hl⟩, ?_⟩
    intro _ hokf
    obtain ⟨fm, fl⟩ := tryAddWatch_mem_new env
      (InotifyWaiter.tryAddWatch env st par DIR_MASK Kind.dir).1 p FILE_MASK Kind.file hokf
    exact ⟨⟨_, fm⟩, fl⟩

/-- `_watch_one` preserves well-formedness and existing entries. -/
theorem watchOne_facts (env : Env) (st : InotifyWaiter) (q : String) (h : st.wf) :
    (InotifyWaiter.watchOne env st q).wf ∧
    st.nextWd ≤ (InotifyWaiter.watchOne env st q).nextWd ∧
    (∀ e ∈ st.wds, e ∈ (InotifyWaiter.watchOne env st q).wds) ∧
    (∀ c ∈ st.addCalls, c ∈ (InotifyWaiter.watchOne env st q).addCalls) := by
  unfold InotifyWaiter.watchOne
  simp only []
  split
  · split
    · next st2 heq =>
      obtain ⟨f1, f2, f3, f4⟩ := tryAddWatch_facts env
        { st with tracked := dictInsert q (env.parent q) st.tracked } q DIR_MASK Kind.dir h
      rw [heq] at f1 f2 f3 f4
      exact ⟨f1, f2, f3, f4⟩
    · exact watchRest_facts env _ q (env.parent q) (env.pathExists q) h
  · exact watchRest_facts env _ q (env.parent q) (env.pathExists q) h

/-- When every registration succeeds, `_watch_one` establishes the coverage
the spec describes for its path: a direct directory watch when the path is an
existing directory, otherwise a parent-directory watch plus a file watch when
the path exists. -/
theorem watchOne_adds (env : Env) (st : InotifyWaiter) (q : String) (h : st.wf)
    (hadd : ∀ (p : String) (m : Nat), env.addOk p m = true) :
    (env.pathExists q = true ∧ env.isDir q = true →
      (∃ w, (w, Kind.dir, q) ∈ (InotifyWaiter.watchOne env st q).wds) ∧
      (q, DIR_MASK) ∈ (InotifyWaiter.watchOne env st q).addCalls) ∧
    (¬(env.pathExists q = true ∧ env.isDir q = true) →
      ((∃ w, (w, Kind.dir, env.parent q) ∈ (InotifyWaiter.watchOne env st q).wds) ∧
        (env.parent q, DIR_MASK) ∈ (InotifyWaiter.watchOne env st q).addCalls) ∧
      (env.pathExists q = true →
        (∃ w, (w, Kind.file, q) ∈ (InotifyWaiter.watchOne env st q).wds) ∧
        (q, FILE_MASK) ∈ (InotifyWaiter.watchOne env st q).addCalls)) := by
  by_cases hc : (env.pathExists q && env.isDir q) = true
  · have hred : InotifyWaiter.watchOne env st q =
        (InotifyWaiter.tryAddWatch env
          { st with tracked := dictInsert q (env.parent q) st.tracked }
          q DIR_MASK Kind.dir).1 := by
      unfold InotifyWaiter.watchOne
      simp only [hc, if_true, InotifyWaiter.tryAddWatch, InotifyWaiter.addWatch, hadd]
    obtain ⟨hm, hl⟩ := tryAddWatch_mem_new env
      { st with tracked := dictInsert q (env.parent q) st.tracked }
      q DIR_MASK Kind.dir (hadd q DIR_MASK)
    refine ⟨fun _ => ?_, fun hn => ?_⟩
    · rw [hred]
      exact ⟨⟨_, hm⟩, hl⟩
    · have hc' : env.pathExists q = true ∧ env.isDir q = true := by simpa using hc
      exact absurd hc' hn
  · have hred : InotifyWaiter.watchOne env st q =
        InotifyWaiter.watchRest env
          { st with tracked := dictInsert q (env.parent q) st.tracked }
          q (env.parent q) (env.pathExists q) := by
      unfold InotifyWaiter.watchOne
      simp only []
      rw [if_neg hc]
    refine ⟨fun hboth => ?_, fun _ => ?_⟩
    · exact absurd (by simp [hboth.1, hboth.2] :
        (env.pathExists q && env.isDir q) = true) hc
    · rw [hred]
      obtain ⟨⟨hw, hl⟩, hfile⟩ := watchRest_adds env
        { st with tracked := dictInsert q (env.parent q) st.tracked }
        q (env.parent q) (env.pathExists q) h (hadd _ _)
      exact ⟨⟨hw, hl⟩, fun hex => hfile hex (hadd _ _)⟩

/-- Folding `_watch_one` over a path list preserves well-formedness and
existing entries. -/
theorem foldl_watchOne_facts (env : Env) (ps : List String) :
    ∀ st : InotifyWaiter, st.wf →
      (ps.foldl (InotifyWaiter.watchOne env) st).wf ∧
      (∀ e ∈ st.wds, e ∈ (ps.foldl (InotifyWaiter.watchOne env) st).wds) ∧
      (∀ c ∈ st.addCalls, c ∈ (ps.foldl (InotifyWaiter.watchOne env) st).addCalls) := by
  induction ps with
  | nil => exact fun st h => ⟨h, fun e he => he, fun c hc => hc⟩
  | cons q rest ih =>
    intro st h
    obtain ⟨f1, _, f3, f4⟩ := watchOne_facts env st q h
    obtain ⟨g1, g3, g4⟩ := ih _ f1
    exact ⟨g1, fun e he => g3 _ (f3 e he), fun c hc => g4 _ (f4 c hc)⟩

/-- C4: after `watch_paths(paths)` in which every backend `add_watch`
succeeds, every path in the set is covered: an existing directory is watched
directly with the directory mask and recorded kind=`directory`; any other
path gets a directory-mask watch on its parent, plus a file-mask watch on
itself if it currently exists — so every still-existing path has a live
watch on itself or its parent. -/
theorem watch_paths_coverage (env : Env) (st : InotifyWaiter) (paths : List String)
    (hadd : ∀ (p : String) (m : Nat), env.addOk p m = true) :
    ∀ q ∈ paths,
      (env.pathExists q = true ∧ env.isDir q = true →
        (∃ w, (w, Kind.dir, q) ∈ (InotifyWaiter.watchPaths env st paths).wds) ∧
        (q, DIR_MASK) ∈ (InotifyWaiter.watchPaths env st paths).addCalls) ∧
      (¬(env.pathExists q = true ∧ env.isDir q = true) →
        ((∃ w, (w, Kind.dir, env.parent q) ∈ (InotifyWaiter.watchPaths env st paths).wds) ∧
          (env.parent q, DIR_MASK) ∈ (InotifyWaiter.watchPaths env st paths).addCalls) ∧
        (env.pathExists q = true →
          (∃ w, (w, Kind.file, q) ∈ (InotifyWaiter.watchPaths env st paths).wds) ∧
          (q, FILE_MASK) ∈ (InotifyWaiter.watchPaths env st paths).addCalls)) := by
  intro q hq
  obtain ⟨l1, l2, rfl⟩ := List.append_of_mem hq
  unfold InotifyWaiter.watchPaths
  rw [List.foldl_append, List.foldl_cons]
  have h0 : (InotifyWaiter.resetWatches st).wf := fun e he => absurd he (List.not_mem_nil e)
  obtain ⟨hA, _, _⟩ := foldl_watchOne_facts env l1 (InotifyWaiter.resetWatches st) h0
  obtain ⟨hadds1, hadds2⟩ := watchOne_adds env
    (l1.foldl (InotifyWaiter.watchOne env) (InotifyWaiter.resetWatches st)) q hA hadd
  obtain ⟨hB1, _, _, _⟩ := watchOne_facts env
    (l1.foldl (InotifyWaiter.watchOne env) (InotifyWaiter.resetWatches st)) q hA
  obtain ⟨_, p3, p4⟩ := foldl_watchOne_facts env l2 _ hB1
  refine ⟨fun hcond => ?_, fun hncond => ?_⟩
  · obtain ⟨⟨w, hw⟩, hl⟩ := hadds1 hcond
    exact ⟨⟨w, p3 _ hw⟩, p4 _ hl⟩
  · obtain ⟨⟨⟨w, hw⟩, hl⟩, hfile⟩ := hadds2 hncond
    refine ⟨⟨⟨w, p3 _ hw⟩, p4 _ hl⟩, fun hex => ?_⟩
    obtain ⟨⟨w2, hw2⟩, hl2⟩ := hfile hex
    exact ⟨⟨w2, p3 _ hw2⟩, p4 _ hl2⟩

/-- The environment of the C4 witness: "/d" is an existing directory, "/d/f"
an existing file under it, "/x" does not exist; every registration succeeds. -/
def envC4 : Env :=
  { envTriv with
    pathExists := fun s => s == "/d" || s == "/d/f",
    isDir := fun s => s == "/d",
    parent := fun s => if s == "/d/f" then "/d" else "/",
    addOk := fun _ _ => true }

/-- Witness for C4, applied at a concrete path set: the existing directory
"/d" gets a direct directory watch, and the non-existing "/x" gets a watch on
its parent "/". -/
theorem watch_paths_coverage_witness :
    (∃ w, (w, Kind.dir, "/d") ∈
      (InotifyWaiter.watchPaths envC4 InotifyWaiter.initState ["/d", "/d/f", "/x"]).wds) ∧
    (∃ w, (w, Kind.dir, "/") ∈
      (InotifyWaiter.watchPaths envC4 InotifyWaiter.initState ["/d", "/d/f", "/x"]).wds) := by
  have h1 := (watch_paths_coverage envC4 InotifyWaiter.initState ["/d", "/d/f", "/x"]
    (fun p m => rfl) "/d" (by simp)).1 ⟨by decide, by decide⟩
  have h2 := ((watch_paths_coverage envC4 InotifyWaiter.initState ["/d", "/d/f", "/x"]
    (fun p m => rfl) "/x" (by simp)).2 (by decide)).1
  exact ⟨h1.1, h2.1⟩

/-- Little-endian 4-byte split/recombine roundtrip for 32-bit values. -/
theorem le4_le32 (n : Nat) (h : n < 2 ^ 32) :
    le4 (n % 256) (n / 256 % 256) (n / 65536 % 256) (n / 16777216 % 256) = n := by
  unfold le4
  omega

/-- The 32-bit pattern of a signed field is a 32-bit value. -/
theorem intBits32_lt (w : Int) : intBits32 w < 2 ^ 32 := by
  unfold intBits32
  omega

/-- Signed reinterpretation undoes the two's-complement pattern for in-range
values. -/
theorem toInt32_intBits32 (w : Int) (h1 : -2 ^ 31 ≤ w) (h2 : w < 2 ^ 31) :
    toInt32 (intBits32 w) = w := by
  unfold toInt32 intBits32
  split <;> omega

/-- Decoding one well-formed record followed by anything yields that record's
event followed by the decode of the rest. -/
theorem parseEvents_cons (dec : List Nat → String) (r : InotifyRecord) (tail : List Nat)
    (h : r.wf) :
    parseEvents dec (r.encode ++ tail) = r.toEvent dec :: parseEvents dec tail := by
  obtain ⟨h1, h2, h3, h4, h5⟩ := h
  have hwd := le4_le32 (intBits32 r.wd) (intBits32_lt r.wd)
  have hmask := le4_le32 r.mask h3
  have hcok := le4_le32 r.cookie h4
  have hlen := le4_le32 r.nameBytes.length h5
  simp only [InotifyRecord.encode, le32, List.cons_append, List.nil_append,
    List.append_assoc]
  rw [parseEvents]
  rw [hwd, hmask, hcok, hlen, toInt32_intBits32 r.wd h1 h2]
  by_cases hname : r.nameBytes.length = 0
  · have hnil : r.nameBytes = [] := List.length_eq_zero.mp hname
    rw [hname, if_neg (by simp)]
    simp [InotifyRecord.toEvent, hnil]
  · rw [if_pos hname, List.take_left, List.drop_left]
    simp [InotifyRecord.toEvent, hname]

/-- C8: for every buffer that is a concatenation of well-formed native
inotify records (fixed 16-byte `iIII` header then `name_len` bytes of
NUL-padded name), the decode loop of `_CtypesInotifyBackend.read` produces
exactly one event per record, in record order, with the name decoded from
the name bytes truncated at the first NUL, and the empty string for records
carrying no name payload. -/
theorem decode_concatenated_records (dec : List Nat → String) (rs : List InotifyRecord)
    (h : ∀ r ∈ rs, r.wf) :
    parseEvents dec (encodeAll rs) = rs.map (InotifyRecord.toEvent dec) := by
  induction rs with
  | nil => simp [encodeAll, parseEvents]
  | cons r rest ih =>
    have hr : r.wf := h r (List.mem_cons_self r rest)
    have hrest : ∀ x ∈ rest, x.wf := fun x hx => h x (List.mem_cons_of_mem r hx)
    show parseEvents dec (((r :: rest).map InotifyRecord.encode).flatten) = _
    rw [List.map_cons, List.flatten_cons, parseEvents_cons dec r _ hr, List.map_cons]
    exact congrArg _ (ih hrest)

/-- Concrete records for the C8 witness: one with a NUL-padded name payload,
one with no name payload and a negative watch descriptor. -/
def recsW : List InotifyRecord :=
  [{ wd := 1, mask := 2, cookie := 0, nameBytes := [97, 0, 0, 0] },
    { wd := -1, mask := 0x4000, cookie := 5, nameBytes := [] }]

/-- A concrete stand-in for `bytes.decode("utf-8", errors="ignore")`. -/
def decW (l : List Nat) : String := if l = [97] then "a" else ""

/-- Witness for C8: decoding the concatenation of the two concrete records. -/
theorem decode_concatenated_records_witness :
    (∀ r ∈ recsW, r.wf) ∧
      parseEvents decW (encodeAll recsW) = recsW.map (InotifyRecord.toEvent decW) := by
  have h : ∀ r ∈ recsW, r.wf := by
    intro r hr
    simp only [recsW, List.mem_cons, List.not_mem_nil, or_false] at hr
    rcases hr with h1 | h2
    · rw [h1]; refine ⟨by norm_num, by norm_num, by norm_num, by norm_num, by norm_num⟩
    · rw [h2]; refine ⟨by norm_num, by norm_num, by norm_num, by norm_num, by norm_num⟩
  exact ⟨h, decode_concatenated_records decW recsW h⟩
